import Mathlib

/-!
Verification development for the interactive prompt module
(src/mcp_agent/core/interactive_prompt.py).

The Python module is shallowly embedded below.  Python values that the code
inspects only through `getattr`, key membership, truthiness, and indexing are
modelled by explicit algebraic datatypes; `None`-able attributes are `Option`;
code that may raise is modelled with `Except`.  External capabilities
(enhanced input, special-command handling, the message send function, the
prompt listing and prompt apply functions, selection and argument input) are
modelled as oracle data carried by each loop iteration or wizard invocation.
Observable behaviour (input solicitations, messages sent, prompt
applications, error reports) is recorded in an effect trace.
-/

/-- Separator used to build namespaced prompt names.
Modelled from the spec: the constant `SEP` is imported from
`mcp_agent.mcp.mcp_aggregator`, which is not part of the analysed source;
the spec only requires a fixed separator string, so a concrete
one-character separator is used here. -/
def SEP : String := "-"

/-- Python `str.upper()` restricted to the character-wise uppercase map. -/
def pyUpper (s : String) : String := String.mk (s.data.map Char.toUpper)

/-- Python `str.strip()`: drop whitespace from both ends. -/
def pyStrip (s : String) : String :=
  String.mk (((s.data.dropWhile Char.isWhitespace).reverse.dropWhile
    Char.isWhitespace).reverse)

/-- Value of an unsigned decimal digit string, `none` when empty or not all
digits. -/
def pyNat? (cs : List Char) : Option Nat :=
  if cs ≠ [] ∧ cs.all Char.isDigit then
    some (cs.foldl (fun a c => a * 10 + (c.toNat - 48)) 0)
  else none

/-- Python `int(s)` on a string: strips whitespace, accepts an optional sign
followed by digits, raises (`none`) otherwise. -/
def pyInt? (s : String) : Option Int :=
  match (pyStrip s).data with
  | [] => none
  | c :: cs =>
    if c = ('-' : Char) then (pyNat? cs).map (fun n => -(n : Int))
    else if c = ('+' : Char) then (pyNat? cs).map (fun n => (n : Int))
    else (pyNat? (c :: cs)).map (fun n => (n : Int))

/-- Raw prompt argument object as the code reads it: `getattr(arg, "name",
None)`, `getattr(arg, "description", None)`, `getattr(arg, "required",
False)`.  Missing attributes are `none`. -/
structure PromptArg where
  nameAttr : Option String
  descAttr : Option String
  requiredAttr : Bool
deriving DecidableEq

/-- One element of a prompts sequence, as the two catalog builders see it.
`pdict` is a Python `dict` (keys probed with `"name" in prompt` and
`prompt.get`; `getattr` on it only yields defaults).  `pobj` is a non-dict
object probed with `getattr`; its `name` attribute is present, the other
attributes may be missing.  `pyStr` records `str(prompt)`. -/
inductive PEntry where
  | pdict (nameKey : Option String) (descKey : Option String)
      (argsKey : Option (List PromptArg)) (pyStr : String)
  | pobj (nameAttr : String) (descAttr : Option String)
      (argsAttr : Option (List PromptArg)) (pyStr : String)
deriving DecidableEq

/-- Per-server value in the mapping returned by `list_prompts_func`: an
object exposing a `prompts` attribute, a raw list, or a falsy value. -/
inductive PromptsInfo where
  | structured (prompts : List PEntry)
  | loose (entries : List PEntry)
  | nullish
deriving DecidableEq

/-- Prompt info dictionary built by `_get_all_prompts`. -/
structure PromptInfo where
  server : String
  name : String
  namespaced_name : String
  description : String
  arg_count : Nat
  arguments : List PromptArg
deriving DecidableEq

/-- Placeholder record used only to make bounds-checked list indexing
total. -/
def piDefault : PromptInfo :=
  { server := "", name := "", namespaced_name := "", description := ""
    arg_count := 0, arguments := [] }

/-- Structured branch of `_get_all_prompts`: fields are read with
`prompt.name` (an `AttributeError`, hence an exception, on a dict) and
`getattr(prompt, "description", "No description")` /
`getattr(prompt, "arguments", [])`. -/
def structEntry (server : String) (p : PEntry) : Except Unit PromptInfo :=
  match p with
  | .pdict _ _ _ _ => .error ()
  | .pobj n d a _ =>
    .ok { server := server, name := n
          namespaced_name := server ++ SEP ++ n
          description := d.getD ("No description")
          arg_count := (a.getD []).length
          arguments := a.getD [] }

/-- Sequential mapping of `structEntry` over a prompts list, aborting at the
first exception, as the Python `for` loop inside the `try` block does. -/
def structEntries (server : String) : List PEntry → Except Unit (List PromptInfo)
  | [] => .ok []
  | p :: rest =>
    match structEntry server p with
    | .error e => .error e
    | .ok d =>
      match structEntries server rest with
      | .ok ds => .ok (d :: ds)
      | .error e => .error e

/-- Loose branch of `_get_all_prompts`: a dict carrying a `"name"` key is
mapped field by field with `prompt.get` defaults; anything else is
stringified and used as the name with no description and no arguments. -/
def looseEntry (server : String) (p : PEntry) : PromptInfo :=
  match p with
  | .pdict (some n) d a _ =>
    { server := server, name := n
      namespaced_name := server ++ SEP ++ n
      description := d.getD ("No description")
      arg_count := (a.getD []).length
      arguments := a.getD [] }
  | .pdict none _ _ s =>
    { server := server, name := s
      namespaced_name := server ++ SEP ++ s
      description := "No description", arg_count := 0, arguments := [] }
  | .pobj _ _ _ s =>
    { server := server, name := s
      namespaced_name := server ++ SEP ++ s
      description := "No description", arg_count := 0, arguments := [] }

/-- Prompts contributed by one server in `_get_all_prompts`: the structured
branch requires a truthy container with a nonempty `prompts` attribute, the
loose branch a nonempty list; everything else contributes nothing. -/
def serverPrompts (server : String) : PromptsInfo → Except Unit (List PromptInfo)
  | .structured ps => structEntries server ps
  | .loose es => .ok (es.map (looseEntry server))
  | .nullish => .ok []

/-- Collection phase of `_get_all_prompts` over all servers, in mapping
order, aborting at the first exception. -/
def getAllPromptsCore : List (String × PromptsInfo) → Except Unit (List PromptInfo)
  | [] => .ok []
  | (sv, info) :: rest =>
    match serverPrompts sv info with
    | .error e => .error e
    | .ok l =>
      match getAllPromptsCore rest with
      | .ok ls => .ok (l ++ ls)
      | .error e => .error e

/-- Sort key comparison for `all_prompts.sort(key=lambda p: (p["server"],
p["name"]))`. -/
def piLe (a b : PromptInfo) : Bool :=
  decide (a.server < b.server) ||
    (a.server == b.server && decide (a.name ≤ b.name))

/-- Model of `_get_all_prompts`: calls the listing capability (whose outcome,
including a raised exception, is the argument), normalizes and sorts; every
exception is caught and turns the result into the empty list. -/
def get_all_prompts (listing : Except Unit (List (String × PromptsInfo))) :
    List PromptInfo :=
  match listing with
  | .error _ => []
  | .ok servers =>
    match getAllPromptsCore servers with
    | .error _ => []
    | .ok l => l.mergeSort piLe

/-- Prompt record built by the catalog step inlined in `_select_prompt`. -/
structure PromptDesc where
  server : String
  name : String
  namespaced_name : String
  description : Option String
  arg_count : Nat
  arg_names : List String
  required_args : List String
  optional_args : List String
  arg_descriptions : List (String × String)
deriving DecidableEq

/-- Placeholder record used only to make bounds-checked list indexing
total. -/
def pdDefault : PromptDesc :=
  { server := "", name := "", namespaced_name := "", description := none
    arg_count := 0, arg_names := [], required_args := [], optional_args := []
    arg_descriptions := [] }

/-- Python dict assignment `m[k] = v`: overwrite in place when the key is
present, append otherwise. -/
def pyDictInsert (m : List (String × String)) (k v : String) :
    List (String × String) :=
  if m.any (fun p => p.1 == k) then
    m.map (fun p => if p.1 == k then (p.1, v) else p)
  else m ++ [(k, v)]

/-- Python `m.get(k, dflt)` on the association lists built with
`pyDictInsert`. -/
def pyDictGet (m : List (String × String)) (k dflt : String) : String :=
  match m.find? (fun p => p.1 == k) with
  | some p => p.2
  | none => dflt

/-- Value of `getattr(prompt, "name", "Unknown")` in `_select_prompt`: a
dict exposes no such attribute, so it always yields the default there. -/
def getattrName : PEntry → String
  | .pdict _ _ _ _ => "Unknown"
  | .pobj n _ _ _ => n

/-- Value of `getattr(prompt, "description", "No description")` in
`_select_prompt`. -/
def getattrDescr : PEntry → String
  | .pdict _ _ _ _ => "No description"
  | .pobj _ d _ _ => d.getD ("No description")

/-- Value of `getattr(prompt, "arguments", None)` in `_select_prompt`. -/
def getattrArgs : PEntry → Option (List PromptArg)
  | .pdict _ _ _ _ => none
  | .pobj _ _ a _ => a

/-- Accumulator of the argument loop inside `_select_prompt`.  The field
`descr` tracks the local variable `description`, which the loop body
reassigns to each argument description. -/
structure SelAcc where
  arg_names : List String
  required_args : List String
  optional_args : List String
  arg_descriptions : List (String × String)
  descr : Option String
deriving DecidableEq

/-- One iteration of the argument loop of `_select_prompt`: arguments with a
truthy `name` are recorded, the variable `description` is reassigned to the
argument description, a truthy argument description is stored in
`arg_descriptions`, and the name is appended to the required or optional
list according to `getattr(arg, "required", False)`. -/
def selProcessArg (acc : SelAcc) (arg : PromptArg) : SelAcc :=
  match arg.nameAttr with
  | none => acc
  | some n =>
    if n = "" then acc
    else
      let acc1 := { acc with arg_names := acc.arg_names ++ [n]
                             descr := arg.descAttr }
      let acc2 :=
        match arg.descAttr with
        | some d =>
          if d = "" then acc1
          else { acc1 with
                   arg_descriptions := pyDictInsert acc1.arg_descriptions n d }
        | none => acc1
      if arg.requiredAttr then
        { acc2 with required_args := acc2.required_args ++ [n] }
      else
        { acc2 with optional_args := acc2.optional_args ++ [n] }

/-- Per-prompt normalization inlined in `_select_prompt`.  Note that the
stored `description` is whatever the shadowed local variable holds after the
argument loop: the prompt description only when no argument with a truthy
name exists, the last such argument description otherwise. -/
def processPrompt (server : String) (p : PEntry) : PromptDesc :=
  let pname := getattrName p
  let args : List PromptArg := (getattrArgs p).getD []
  let acc := args.foldl selProcessArg
    { arg_names := [], required_args := [], optional_args := []
      arg_descriptions := [], descr := some (getattrDescr p) }
  { server := server, name := pname
    namespaced_name := server ++ SEP ++ pname
    description := acc.descr
    arg_count := acc.arg_names.length
    arg_names := acc.arg_names
    required_args := acc.required_args
    optional_args := acc.optional_args
    arg_descriptions := acc.arg_descriptions }

/-- Catalog collection inlined in `_select_prompt`: falsy server entries are
skipped, a `prompts` attribute or a raw list supplies the entries, and each
entry goes through `processPrompt`. -/
def selectCatalog (servers : List (String × PromptsInfo)) : List PromptDesc :=
  servers.foldl
    (fun acc sp =>
      match sp.2 with
      | .structured ps => acc ++ ps.map (processPrompt sp.1)
      | .loose es => acc ++ es.map (processPrompt sp.1)
      | .nullish => acc)
    []

/-- Sort key comparison for `all_prompts.sort(key=lambda p: (p["server"],
p["name"]))` in `_select_prompt`. -/
def pdLe (a b : PromptDesc) : Bool :=
  decide (a.server < b.server) ||
    (a.server == b.server && decide (a.name ≤ b.name))

/-- Observable events of the session: input solicitations with the shown
default, messages sent with the send result, wizard selection and argument
solicitations, prompt applications, and status or error lines printed. -/
inductive Effect where
  | solicit (agent : String) (defaultText : String) (shown : Bool)
  | sent (text : String) (agent : String) (result : String)
  | solicitSel
  | solicitArg (name : String) (descr : String) (required : Bool)
  | applied (namespacedName : String) (args : List (String × String))
      (agent : String)
  | printed (msg : String)
deriving DecidableEq

/-- Oracle data consumed by one `_select_prompt` invocation: the outcome of
the listing call, the string returned by `get_selection_input` (at most one
such call happens per invocation, `none` models a `None` return), the values
returned by `get_argument_input` keyed by argument name, and the outcome of
the apply call. -/
structure WizIn where
  listing : Except Unit (List (String × PromptsInfo))
  selInput : Option String
  argInput : String → Option String
  applyResult : Except Unit Unit

/-- Body of the required-argument loop of `_select_prompt`: solicit the
argument with its stored description and store the returned value in
`arg_values` whenever one was returned (`if arg_value is not None`). -/
def reqStep (argInput : String → Option String)
    (descs : List (String × String))
    (acc : List (String × String) × List Effect) (a : String) :
    List (String × String) × List Effect :=
  let fx := acc.2 ++ [Effect.solicitArg a (pyDictGet descs a "") true]
  match argInput a with
  | some v => (pyDictInsert acc.1 a v, fx)
  | none => (acc.1, fx)

/-- Body of the optional-argument loop of `_select_prompt`: solicit the
argument and store the returned value only when it is truthy
(`if arg_value`). -/
def optStep (argInput : String → Option String)
    (descs : List (String × String))
    (acc : List (String × String) × List Effect) (a : String) :
    List (String × String) × List Effect :=
  let fx := acc.2 ++ [Effect.solicitArg a (pyDictGet descs a "") false]
  match argInput a with
  | some v => if v = "" then (acc.1, fx) else (pyDictInsert acc.1 a v, fx)
  | none => (acc.1, fx)

/-- Argument collection of `_select_prompt`: one solicitation per required
argument in order, then one per optional argument in order. -/
def collectArgs (argInput : String → Option String)
    (descs : List (String × String)) (req opt : List String) :
    List (String × String) × List Effect :=
  opt.foldl (optStep argInput descs)
    (req.foldl (reqStep argInput descs)
      (([] : List (String × String)), ([] : List Effect)))

/-- Argument collection and apply phase of `_select_prompt` for the resolved
descriptor: an argument header is printed when any arguments exist, the
argument map is collected, and `apply_prompt_func` is invoked with the
namespaced name, the collected map and the agent name; an exception from the
apply call is caught by the surrounding handler. -/
def collectAndApply (win : WizIn) (sel : PromptDesc) (agent : String) :
    List Effect :=
  let header : List Effect :=
    if sel.required_args ≠ [] ∨ sel.optional_args ≠ [] then
      [Effect.printed ("Prompt argument header")]
    else []
  let c := collectArgs win.argInput sel.arg_descriptions
    sel.required_args sel.optional_args
  header ++ c.2 ++
    [Effect.printed ("Applying prompt"),
     Effect.applied sel.namespaced_name c.1 agent] ++
    (match win.applyResult with
     | .ok _ => []
     | .error _ => [Effect.printed ("Error selecting or applying prompt")])

/-- Matching predicate of the requested-name filter in `_select_prompt`. -/
def matchesReq (req : String) (p : PromptDesc) : Bool :=
  p.name == req || p.namespaced_name == req

/-- Model of `_select_prompt`: fetch and normalize the catalog, resolve the
requested name or solicit a numbered selection, collect arguments and apply.
Every exception inside (a listing or apply failure here) is caught at the
top level and reported, so the function always returns an effect trace. -/
def select_prompt (win : WizIn) (agent : String) (requested : Option String) :
    List Effect :=
  let fetch := [Effect.printed ("Fetching prompts for agent " ++ agent)]
  match win.listing with
  | .error _ =>
    fetch ++ [Effect.printed ("Error selecting or applying prompt")]
  | .ok servers =>
    if servers.isEmpty then
      fetch ++ [Effect.printed ("No prompts available for this agent")]
    else
      let all := (selectCatalog servers).mergeSort pdLe
      if all.isEmpty then
        fetch ++ [Effect.printed ("No prompts available for this agent")]
      else
        match requested with
        | some req =>
          let matching := all.filter (matchesReq req)
          match matching with
          | [] =>
            fetch ++ [Effect.printed ("Prompt " ++ req ++ " not found")] ++
              all.map (fun p => Effect.printed p.namespaced_name)
          | [sel] => fetch ++ collectAndApply win sel agent
          | _ =>
            let fx1 := fetch ++
              [Effect.printed ("Multiple prompts match " ++ req),
               Effect.solicitSel]
            match pyInt? ((win.selInput).getD "") with
            | none =>
              fx1 ++ [Effect.printed ("Invalid input, please enter a number")]
            | some k =>
              if 0 ≤ k - 1 ∧ k - 1 < (matching.length : Int) then
                fx1 ++ collectAndApply win
                  (matching.getD (k - 1).toNat pdDefault) agent
              else fx1 ++ [Effect.printed ("Invalid selection")]
        | none =>
          let fx1 := fetch ++
            [Effect.printed ("Available MCP Prompts table"), Effect.solicitSel]
          match win.selInput with
          | none => fx1 ++ [Effect.printed ("Prompt selection cancelled")]
          | some s =>
            if pyStrip s = "" then
              fx1 ++ [Effect.printed ("Prompt selection cancelled")]
            else
              match pyInt? s with
              | none =>
                fx1 ++
                  [Effect.printed ("Invalid input, please enter a number")]
              | some k =>
                if 0 ≤ k - 1 ∧ k - 1 < (all.length : Int) then
                  fx1 ++ collectAndApply win
                    (all.getD (k - 1).toNat pdDefault) agent
                else fx1 ++ [Effect.printed ("Invalid selection")]

/-- Model of `_list_prompts`: fetch the catalog through `_get_all_prompts`
and print the table, or a notice when the catalog is empty. -/
def list_prompts_eff (agent : String)
    (listing : Except Unit (List (String × PromptsInfo))) : List Effect :=
  let all := get_all_prompts listing
  Effect.printed ("Fetching prompts for agent " ++ agent) ::
    (if all.isEmpty then [Effect.printed ("No prompts available")]
     else [Effect.printed ("Available MCP Prompts table"),
           Effect.printed ("Usage hints")])

/-- Value returned by `get_enhanced_input`: plain text or a structured
dictionary (only its dict-ness is inspected by the loop). -/
inductive UInput where
  | txt (s : String)
  | struct
deriving DecidableEq

/-- Dictionary result of `handle_special_commands` as probed by the loop:
presence of the `switch_agent`, `list_prompts` and `select_prompt` keys and
the values fetched with `command_result.get`. -/
structure CmdDict where
  switch_agent : Option String
  list_prompts : Bool
  select_prompt : Bool
  prompt_name : Option String
  prompt_index : Option Int

/-- Result of `handle_special_commands`: a dictionary, or any other Python
value of which only the truthiness is inspected. -/
inductive CmdResult where
  | dict (d : CmdDict)
  | nonDict (truthy : Bool)

/-- Static configuration of one `prompt_loop` run: the available agent
names, whether the optional `list_prompts_func` and `apply_prompt_func`
capabilities were supplied, and the `default` text parameter. -/
structure LoopCfg where
  avail : List String
  hasList : Bool
  hasApply : Bool
  defaultText : String

/-- Mutable state of the loop: the current agent and the last send result. -/
structure LoopState where
  agent : String
  result : String
deriving DecidableEq

/-- Oracle data consumed by one loop iteration: the enhanced-input return,
the special-command handling result, the outcomes of any listing call, of
the wizard selection and argument inputs, of any apply call, and of any send
call made during this iteration. -/
structure Event where
  input : UInput
  cmd : CmdResult
  listing : Except Unit (List (String × PromptsInfo))
  selInput : Option String
  argInput : String → Option String
  applyResult : Except Unit Unit
  sendResult : Except Unit String

/-- Wizard oracle view of a loop iteration. -/
def eventWiz (e : Event) : WizIn :=
  { listing := e.listing, selInput := e.selInput, argInput := e.argInput
    applyResult := e.applyResult }

/-- Result of one loop iteration: continue with a new state, return a final
value (the `STOP` path), or propagate a send failure. -/
inductive StepRes where
  | cont (st : LoopState)
  | done (r : String)
  | failedSend
deriving DecidableEq

/-- Body of one `prompt_loop` iteration after the input was solicited:
dictionary command results are dispatched to agent switching, prompt
listing or prompt selection; any other truthy or dictionary result (and any
dictionary input) is consumed silently; the remaining text goes through the
`STOP` and blank checks and is finally forwarded to `send_func`. -/
def loopStepCore (cfg : LoopCfg) (st : LoopState) (e : Event) :
    StepRes × List Effect :=
  match e.cmd with
  | .dict d =>
    match d.switch_agent with
    | some n =>
      if cfg.avail.contains n then (.cont { st with agent := n }, [])
      else (.cont st, [Effect.printed ("Agent " ++ n ++ " not found")])
    | none =>
      if d.list_prompts && cfg.hasList then
        (.cont st, list_prompts_eff st.agent e.listing)
      else if d.select_prompt && (cfg.hasList && cfg.hasApply) then
        match d.prompt_index with
        | some i =>
          let all := get_all_prompts e.listing
          if all.isEmpty then
            (.cont st, [Effect.printed ("No prompts available")])
          else if 1 ≤ i ∧ i ≤ (all.length : Int) then
            (.cont st,
             select_prompt (eventWiz e) st.agent
               (some ((all.getD (i - 1).toNat piDefault).namespaced_name)))
          else
            (.cont st,
             Effect.printed ("Invalid prompt number") ::
               list_prompts_eff st.agent e.listing)
        | none =>
          (.cont st, select_prompt (eventWiz e) st.agent d.prompt_name)
      else (.cont st, [])
  | .nonDict t =>
    if t then (.cont st, [])
    else
      match e.input with
      | .struct => (.cont st, [])
      | .txt s =>
        if pyUpper s = "STOP" then (.done st.result, [])
        else if s = "" then (.cont st, [])
        else
          match e.sendResult with
          | .ok r => (.cont { st with result := r }, [Effect.sent s st.agent r])
          | .error _ => (.failedSend, [])

/-- One full `prompt_loop` iteration: the input solicitation (always showing
the unchanged `default` parameter as pre-filled text, shown while it is
non-empty) followed by the dispatch of the iteration body. -/
def loopStep (cfg : LoopCfg) (st : LoopState) (e : Event) :
    StepRes × List Effect :=
  let r := loopStepCore cfg st e
  (r.1,
   Effect.solicit st.agent cfg.defaultText (cfg.defaultText != "") :: r.2)

/-- Outcome of a whole session run on a finite schedule of iteration
oracles. -/
inductive Outcome where
  | finished (r : String)
  | sendFailed
  | exhausted (st : LoopState)
  | configError
deriving DecidableEq

/-- Iterated loop: consume events until the loop returns, a send fails, or
the schedule is exhausted with the loop still running. -/
def runLoopAux (cfg : LoopCfg) : List Event → LoopState → Outcome × List Effect
  | [], st => (.exhausted st, [])
  | e :: es, st =>
    match loopStep cfg st e with
    | (.cont st2, fx) =>
      let r := runLoopAux cfg es st2
      (r.1, fx ++ r.2)
    | (.done v, fx) => (.finished v, fx)
    | (.failedSend, fx) => (.sendFailed, fx)

/-- Startup validation of `prompt_loop`: an empty default agent falls back
to the first available agent or raises, and the resulting agent must belong
to `available_agents`. -/
def resolveAgent (defaultAgent : String) (avail : List String) :
    Except String String :=
  match
    (if defaultAgent = "" then
       match avail with
       | a :: _ => Except.ok a
       | [] => Except.error ("No default agent available")
     else Except.ok defaultAgent) with
  | .error m => .error m
  | .ok a =>
    if avail.contains a then .ok a
    else .error ("No agent named " ++ a)

/-- Model of `prompt_loop`: validate the starting agent, then run the loop
with `result` initialized to the empty string. -/
def prompt_loop (cfg : LoopCfg) (defaultAgent : String) (events : List Event) :
    Outcome × List Effect :=
  match resolveAgent defaultAgent cfg.avail with
  | .error _ => (.configError, [])
  | .ok a => runLoopAux cfg events { agent := a, result := "" }

/-- Last send result recorded in an effect trace, starting from `init`. -/
def lastSentD (init : String) (fx : List Effect) : String :=
  fx.foldl
    (fun a e =>
      match e with
      | Effect.sent _ _ r => r
      | _ => a)
    init

/-- Predicate singling out send effects. -/
def notSent : Effect → Bool
  | Effect.sent _ _ _ => false
  | _ => true

/-- Truthiness test applied by line 161 of the source: a dictionary result
always suppresses forwarding, a non-dictionary one only when truthy. -/
def cmdTruthyOrDict : CmdResult → Bool
  | CmdResult.dict _ => true
  | CmdResult.nonDict t => t

/-- Membership reading of the Boolean `contains` used for the agent set. -/
theorem contains_iff_mem (l : List String) (a : String) :
    l.contains a = true ↔ a ∈ l := by
  simp [List.contains, List.elem_iff]

/-- Keys of an association list. -/
def keysOf (m : List (String × String)) : List String := m.map Prod.fst

/-- Inserting a fresh key appends the binding. -/
theorem pyDictInsert_of_not_mem (m : List (String × String)) (k v : String)
    (h : k ∉ keysOf m) : pyDictInsert m k v = m ++ [(k, v)] := by
  unfold pyDictInsert
  rw [if_neg]
  intro hc
  rcases List.any_eq_true.mp hc with ⟨p, hp, hpk⟩
  exact h (by simpa [keysOf] using List.mem_map.mpr ⟨p, hp, (beq_iff_eq.mp hpk)⟩)

/-- Effect trace of the required-argument loop: one solicitation per name,
in order, appended to the accumulator trace. -/
theorem foldl_reqStep_snd (f : String → Option String)
    (ds : List (String × String)) :
    ∀ (req : List String) (acc : List (String × String) × List Effect),
      (req.foldl (reqStep f ds) acc).2 =
        acc.2 ++ req.map (fun a => Effect.solicitArg a (pyDictGet ds a "") true) := by
  intro req
  induction req with
  | nil => intro acc; simp
  | cons a t ih =>
    intro acc
    rw [List.foldl_cons, ih]
    cases h : f a <;> simp [reqStep, h]

/-- Effect trace of the optional-argument loop. -/
theorem foldl_optStep_snd (f : String → Option String)
    (ds : List (String × String)) :
    ∀ (opt : List String) (acc : List (String × String) × List Effect),
      (opt.foldl (optStep f ds) acc).2 =
        acc.2 ++ opt.map (fun a => Effect.solicitArg a (pyDictGet ds a "") false) := by
  intro opt
  induction opt with
  | nil => intro acc; simp
  | cons a t ih =>
    intro acc
    rw [List.foldl_cons, ih]
    cases h : f a with
    | none => simp [optStep, h]
    | some v =>
      by_cases hv : v = "" <;> simp [optStep, h, hv]

/-- Stored binding produced by one required argument. -/
def reqBind (f : String → Option String) (a : String) :
    Option (String × String) :=
  (f a).map (fun v => (a, v))

/-- Stored binding produced by one optional argument: only truthy values. -/
def optBind (f : String → Option String) (a : String) :
    Option (String × String) :=
  match f a with
  | some v => if v = "" then none else some (a, v)
  | none => none

/-- Argument map built by the required-argument loop, for fresh,
duplicate-free names: the bindings are appended in iteration order. -/
theorem foldl_reqStep_fst (f : String → Option String)
    (ds : List (String × String)) :
    ∀ (req : List String) (acc : List (String × String) × List Effect),
      req.Nodup → (∀ a ∈ req, a ∉ keysOf acc.1) →
      (req.foldl (reqStep f ds) acc).1 = acc.1 ++ req.filterMap (reqBind f) := by
  intro req
  induction req with
  | nil => intro acc _ _; simp
  | cons a t ih =>
    intro acc hnd hfresh
    rw [List.foldl_cons]
    rcases List.nodup_cons.mp hnd with ⟨hat, hndt⟩
    cases h : f a with
    | none =>
      have h1 : (reqStep f ds acc a).1 = acc.1 := by simp [reqStep, h]
      have h2 : ∀ b ∈ t, b ∉ keysOf (reqStep f ds acc a).1 := by
        intro b hb
        rw [h1]
        exact hfresh b (List.mem_cons_of_mem a hb)
      rw [ih (reqStep f ds acc a) hndt h2, h1]
      simp [List.filterMap_cons, reqBind, h]
    | some v =>
      have h1 : (reqStep f ds acc a).1 = acc.1 ++ [(a, v)] := by
        simp [reqStep, h,
          pyDictInsert_of_not_mem acc.1 a v (hfresh a (List.mem_cons_self a t))]
      have h2 : ∀ b ∈ t, b ∉ keysOf (reqStep f ds acc a).1 := by
        intro b hb
        rw [h1]
        simp [keysOf, List.mem_append]
        constructor
        · have := hfresh b (List.mem_cons_of_mem a hb)
          simpa [keysOf] using this
        · intro hba; exact hat (hba ▸ hb)
      rw [ih (reqStep f ds acc a) hndt h2, h1]
      simp [List.filterMap_cons, reqBind, h]

/-- Argument map built by the optional-argument loop, for fresh,
duplicate-free names. -/
theorem foldl_optStep_fst (f : String → Option String)
    (ds : List (String × String)) :
    ∀ (opt : List String) (acc : List (String × String) × List Effect),
      opt.Nodup → (∀ a ∈ opt, a ∉ keysOf acc.1) →
      (opt.foldl (optStep f ds) acc).1 = acc.1 ++ opt.filterMap (optBind f) := by
  intro opt
  induction opt with
  | nil => intro acc _ _; simp
  | cons a t ih =>
    intro acc hnd hfresh
    rw [List.foldl_cons]
    rcases List.nodup_cons.mp hnd with ⟨hat, hndt⟩
    by_cases hkeep : ∃ v, f a = some v ∧ v ≠ ""
    · rcases hkeep with ⟨v, hv, hv0⟩
      have h1 : (optStep f ds acc a).1 = acc.1 ++ [(a, v)] := by
        simp [optStep, hv, hv0,
          pyDictInsert_of_not_mem acc.1 a v (hfresh a (List.mem_cons_self a t))]
      have h2 : ∀ b ∈ t, b ∉ keysOf (optStep f ds acc a).1 := by
        intro b hb
        rw [h1]
        simp [keysOf, List.mem_append]
        constructor
        · have := hfresh b (List.mem_cons_of_mem a hb)
          simpa [keysOf] using this
        · intro hba; exact hat (hba ▸ hb)
      rw [ih (optStep f ds acc a) hndt h2, h1]
      simp [List.filterMap_cons, optBind, hv, hv0]
    · have h1 : (optStep f ds acc a).1 = acc.1 := by
        cases hv : f a with
        | none => simp [optStep, hv]
        | some v =>
          have hv0 : v = "" := by
            by_contra hne
            exact hkeep ⟨v, hv, hne⟩
          simp [optStep, hv, hv0]
      have h2 : ∀ b ∈ t, b ∉ keysOf (optStep f ds acc a).1 := by
        intro b hb
        rw [h1]
        exact hfresh b (List.mem_cons_of_mem a hb)
      rw [ih (optStep f ds acc a) hndt h2, h1]
      cases hv : f a with
      | none => simp [List.filterMap_cons, optBind, hv]
      | some v =>
        have hv0 : v = "" := by
          by_contra hne
          exact hkeep ⟨v, hv, hne⟩
        simp [List.filterMap_cons, optBind, hv, hv0]

/-- Folding the last-send accumulator over a trace without send effects
leaves it unchanged. -/
theorem lastSentD_of_all_notSent (x : String) (fx : List Effect)
    (h : ∀ ef ∈ fx, notSent ef = true) : lastSentD x fx = x := by
  induction fx generalizing x with
  | nil => rfl
  | cons a t ih =>
    have ha := h a (List.mem_cons_self a t)
    have ht : ∀ ef ∈ t, notSent ef = true :=
      fun ef hef => h ef (List.mem_cons_of_mem a hef)
    cases a with
    | sent _ _ _ => simp [notSent] at ha
    | _ => exact ih x ht

/-- Last-send accumulator distributes over trace concatenation. -/
theorem lastSentD_append (x : String) (l r : List Effect) :
    lastSentD x (l ++ r) = lastSentD (lastSentD x l) r := by
  simp [lastSentD, List.foldl_append]

/-- Argument collection emits only solicitations. -/
theorem collectArgs_snd_notSent (f : String → Option String)
    (ds : List (String × String)) (req opt : List String) :
    ∀ ef ∈ (collectArgs f ds req opt).2, notSent ef = true := by
  intro ef hef
  rw [collectArgs, foldl_optStep_snd, foldl_reqStep_snd] at hef
  simp only [List.nil_append, List.mem_append, List.mem_map] at hef
  rcases hef with ⟨a, _, ha⟩ | ⟨a, _, ha⟩ <;> rw [← ha] <;> rfl


/-- Boolean check over a mapped list. -/
theorem all_map_comp {α β : Type} (f : α → β) (p : β → Bool) (l : List α) :
    (l.map f).all p = l.all (fun a => p (f a)) := by
  induction l with
  | nil => rfl
  | cons a t ih => simp [List.all_cons, ih]

/-- Boolean check that holds everywhere. -/
theorem all_const_true {α : Type} (l : List α) :
    l.all (fun _ => true) = true := by
  induction l with
  | nil => rfl
  | cons a t ih => simp [List.all_cons, ih]

/-- The argument collection and apply phase never sends a message. -/
theorem collectAndApply_all_notSent (win : WizIn) (sel : PromptDesc)
    (agent : String) : (collectAndApply win sel agent).all notSent = true := by
  unfold collectAndApply
  dsimp only
  have hc : ((collectArgs win.argInput sel.arg_descriptions sel.required_args
      sel.optional_args).2).all notSent = true :=
    List.all_eq_true.mpr (collectArgs_snd_notSent win.argInput
      sel.arg_descriptions sel.required_args sel.optional_args)
  split <;> split <;>
    simp [List.all_append, List.all_cons, hc, notSent]

/-- The selection wizard never sends a message. -/
theorem select_prompt_all_notSent (win : WizIn) (agent : String)
    (req : Option String) :
    (select_prompt win agent req).all notSent = true := by
  unfold select_prompt
  dsimp only
  repeat' split
  all_goals
    simp [List.all_append, List.all_cons, all_map_comp, all_const_true,
      notSent, collectAndApply_all_notSent]

/-- The prompt listing helper never sends a message. -/
theorem list_prompts_eff_all_notSent (agent : String)
    (listing : Except Unit (List (String × PromptsInfo))) :
    (list_prompts_eff agent listing).all notSent = true := by
  unfold list_prompts_eff
  dsimp only
  split <;> simp [List.all_cons, notSent]

/-- Value that the `result` variable holds after one iteration. -/
def stepResultVal (st : LoopState) : StepRes → String
  | .cont st2 => st2.result
  | .done v => v
  | .failedSend => st.result

/-- Last-send accumulator ignores an empty trace. -/
theorem lastSentD_nil (x : String) : lastSentD x [] = x := rfl

/-- Last-send accumulator ignores solicitations. -/
theorem lastSentD_solicit_cons (x a d : String) (b : Bool) (t : List Effect) :
    lastSentD x (Effect.solicit a d b :: t) = lastSentD x t := rfl

/-- Last-send accumulator ignores printed lines. -/
theorem lastSentD_printed_cons (x m : String) (t : List Effect) :
    lastSentD x (Effect.printed m :: t) = lastSentD x t := rfl

/-- Last-send accumulator records a send result. -/
theorem lastSentD_sent_cons (x s a r : String) (t : List Effect) :
    lastSentD x (Effect.sent s a r :: t) = lastSentD r t := rfl

/-- Last-send reading of a wizard trace. -/
theorem lastSentD_select_prompt (x : String) (w : WizIn) (a : String)
    (r : Option String) : lastSentD x (select_prompt w a r) = x :=
  lastSentD_of_all_notSent x _
    (List.all_eq_true.mp (select_prompt_all_notSent w a r))

/-- Last-send reading of a listing trace. -/
theorem lastSentD_list_prompts_eff (x a : String)
    (l : Except Unit (List (String × PromptsInfo))) :
    lastSentD x (list_prompts_eff a l) = x :=
  lastSentD_of_all_notSent x _
    (List.all_eq_true.mp (list_prompts_eff_all_notSent a l))

/-- After one iteration, the last send result recorded in the iteration
trace is exactly the `result` value the iteration hands on. -/
theorem loopStep_lastSent (cfg : LoopCfg) (st : LoopState) (e : Event) :
    lastSentD st.result (loopStep cfg st e).2 =
      stepResultVal st (loopStep cfg st e).1 := by
  obtain ⟨inp, cmd, lst, sel, argf, ap, snd⟩ := e
  unfold loopStep loopStepCore
  dsimp only
  repeat' split
  all_goals
    simp [lastSentD_solicit_cons, lastSentD_printed_cons, lastSentD_sent_cons,
      lastSentD_nil, lastSentD_select_prompt, lastSentD_list_prompts_eff,
      stepResultVal]

/-- A dictionary command result always continues the loop. -/
theorem loopStep_dict_cont (cfg : LoopCfg) (st : LoopState) (e : Event)
    (d : CmdDict) (h : e.cmd = CmdResult.dict d) :
    ∃ st2, (loopStep cfg st e).1 = StepRes.cont st2 := by
  obtain ⟨inp, cmd, lst, sel, argf, ap, snd⟩ := e
  dsimp only at h
  subst h
  unfold loopStep loopStepCore
  dsimp only
  repeat' split
  all_goals exact ⟨_, rfl⟩

/-- A truthy non-dictionary command result always continues the loop with
no effect beyond the solicitation. -/
theorem loopStep_truthy_cont (cfg : LoopCfg) (st : LoopState) (e : Event)
    (h : e.cmd = CmdResult.nonDict true) :
    loopStep cfg st e =
      (StepRes.cont st,
       [Effect.solicit st.agent cfg.defaultText (cfg.defaultText != "")]) := by
  obtain ⟨inp, cmd, lst, sel, argf, ap, snd⟩ := e
  dsimp only at h
  subst h
  rfl

/-- Characterization of the `done` outcome of one iteration: it arises
exactly from the `STOP` check, and it carries the current `result`. -/
theorem loopStep_done_char (cfg : LoopCfg) (st : LoopState) (e : Event)
    (v : String) (h : (loopStep cfg st e).1 = StepRes.done v) :
    v = st.result ∧ e.cmd = CmdResult.nonDict false ∧
      ∃ s, e.input = UInput.txt s ∧ pyUpper s = "STOP" := by
  obtain ⟨inp, cmd, lst, sel, argf, ap, snd⟩ := e
  unfold loopStep loopStepCore at h
  dsimp only at h
  cases cmd with
  | dict d =>
    exfalso
    revert h
    repeat' split
    all_goals (intro h; simp_all)
  | nonDict t =>
    cases t with
    | true => simp at h
    | false =>
      cases inp with
      | struct => simp at h
      | txt s =>
        by_cases hstop : pyUpper s = "STOP"
        · simp only [Bool.false_eq_true, if_false, if_pos hstop] at h
          exact ⟨by simpa using h.symm, rfl, s, rfl, hstop⟩
        · exfalso
          revert h
          simp only [Bool.false_eq_true, if_false, if_neg hstop]
          split
          · intro h; simp at h
          · split
            · intro h; simp at h
            · intro h; simp at h

/-- The iterated loop never reports a configuration error. -/
theorem runLoopAux_ne_configError (cfg : LoopCfg) :
    ∀ (es : List Event) (st : LoopState),
      (runLoopAux cfg es st).1 ≠ Outcome.configError := by
  intro es
  induction es with
  | nil => intro st h; simp [runLoopAux] at h
  | cons e t ih =>
    intro st h
    unfold runLoopAux at h
    revert h
    cases hs : loopStep cfg st e with
    | mk r fx =>
      cases r with
      | cont st2 =>
        dsimp only
        intro h
        exact ih st2 h
      | done v => dsimp only; intro h; simp at h
      | failedSend => dsimp only; intro h; simp at h

/-- Whenever the iterated loop finishes normally, the returned value is the
last send result recorded in its trace, starting from the current
`result`. -/
theorem runLoopAux_finished (cfg : LoopCfg) :
    ∀ (es : List Event) (st : LoopState) (v : String),
      (runLoopAux cfg es st).1 = Outcome.finished v →
      v = lastSentD st.result (runLoopAux cfg es st).2 := by
  intro es
  induction es with
  | nil => intro st v h; simp [runLoopAux] at h
  | cons e t ih =>
    intro st v h
    have hstep := loopStep_lastSent cfg st e
    unfold runLoopAux at h ⊢
    revert h hstep
    cases hs : loopStep cfg st e with
    | mk r fx =>
      cases r with
      | cont st2 =>
        dsimp only
        intro hstep h
        rw [lastSentD_append, hstep]
        exact ih st2 v h
      | done w =>
        dsimp only
        intro hstep h
        have hv : w = v := by simpa using h
        rw [← hv, hstep]
        rfl
      | failedSend =>
        dsimp only
        intro hstep h
        simp at h

/-- Event builder used by concrete scenarios: selection and argument inputs
absent, apply succeeding. -/
def mkEvent (i : UInput) (c : CmdResult)
    (lst : Except Unit (List (String × PromptsInfo)))
    (snd : Except Unit String) : Event :=
  { input := i, cmd := c, listing := lst, selInput := none
    argInput := fun _ => none, applyResult := Except.ok ()
    sendResult := snd }

/-- Concrete prompt exercising the description handling of the wizard
catalog step: the prompt carries its own description and declares one
argument that also carries a description. -/
def c1prompt : PEntry :=
  PEntry.pobj "daily" (some "Daily report")
    (some [{ nameAttr := some "city", descAttr := some "City name",
             requiredAttr := true }]) "c1str"

/-- Claim C1: the descriptor built by the catalog step inlined in
`_select_prompt` is claimed to carry the prompt description regardless of
the declared arguments.  The code reuses the local variable `description`
inside the argument loop, so for a prompt with a described argument the
stored description is the argument description, not the prompt one: the
claim fails on the code at this input. -/
theorem c1_description_clobbered_by_argument_loop :
    getattrDescr c1prompt = "Daily report" ∧
    (processPrompt "svc" c1prompt).description = some ("City name") ∧
    (processPrompt "svc" c1prompt).description ≠
      some (getattrDescr c1prompt) := by
  refine ⟨rfl, rfl, ?_⟩
  decide

/-- Concrete loose-form dict entry with a `"name"` key and no description
or arguments keys. -/
def c3entry : PEntry := PEntry.pdict (some "greet") none none "dictstr"

/-- Claim C3: a loose-form dict entry is claimed to be mapped in the wizard
field by field like the Catalog Resolver maps it.  `_get_all_prompts`
(`looseEntry`) indeed maps it to name `greet` with the defaults, but the
inlined catalog step of `_select_prompt` (`processPrompt`) reads the dict
with `getattr`, which yields the defaults, so the wizard names the
descriptor `Unknown`: the claim fails on the code at this input. -/
theorem c3_wizard_reads_loose_dict_with_getattr :
    (looseEntry "svc" c3entry).name = "greet" ∧
    (looseEntry "svc" c3entry).description = "No description" ∧
    (looseEntry "svc" c3entry).arguments = [] ∧
    (processPrompt "svc" c3entry).name = "Unknown" ∧
    (processPrompt "svc" c3entry).name ≠ (looseEntry "svc" c3entry).name := by
  refine ⟨rfl, rfl, rfl, rfl, ?_⟩
  decide

/-- Session configuration for the pre-filled default scenario. -/
def c2cfg : LoopCfg :=
  { avail := ["a"], hasList := false, hasApply := false
    defaultText := "draft" }

/-- Claim C2, counterexample: a session with non-empty initial text whose
first input is a real send.  The claim says the solicitation after that
send must show an empty default; the trace shows it still pre-fills
`draft`, because `prompt_loop` never clears the `default` parameter. -/
theorem c2_default_persists_counterexample :
    (prompt_loop c2cfg "a"
        [mkEvent (UInput.txt "hello") (CmdResult.nonDict false)
           (Except.ok []) (Except.ok "r1"),
         mkEvent (UInput.txt "world") (CmdResult.nonDict false)
           (Except.ok []) (Except.ok "r2")]).2 =
      [Effect.solicit "a" "draft" true, Effect.sent "hello" "a" "r1",
       Effect.solicit "a" "draft" true, Effect.sent "world" "a" "r2"] ∧
    ("draft" : String) ≠ "" := by
  refine ⟨rfl, ?_⟩
  decide

/-- Claim C2, amended: every input solicitation of the session shows the
unchanged `default` parameter as the pre-filled text, marked as shown
exactly while that parameter is non-empty, on every iteration — it never
collapses to empty after a command or a send. -/
theorem c2_default_shown_on_every_iteration (cfg : LoopCfg) (st : LoopState)
    (e : Event) :
    (loopStep cfg st e).2.head? =
      some (Effect.solicit st.agent cfg.defaultText
        (cfg.defaultText != "")) := rfl

/-- Claim C5: in the session loop, an input whose uppercase form is exactly
`STOP`, reaching the sentinel check (command result falsy and not a dict),
terminates the loop and returns the current `result`; the `done` outcome
arises only from that check; and whenever the whole session finishes
normally, the returned value is the last send result recorded in the trace,
or the initial empty string when nothing was sent. -/
theorem c5_stop_returns_last_send_result :
    (∀ (cfg : LoopCfg) (st : LoopState) (e : Event) (s : String),
       e.cmd = CmdResult.nonDict false → e.input = UInput.txt s →
       pyUpper s = "STOP" →
       loopStep cfg st e =
         (StepRes.done st.result,
          [Effect.solicit st.agent cfg.defaultText (cfg.defaultText != "")]))
    ∧ (∀ (cfg : LoopCfg) (st : LoopState) (e : Event) (v : String),
         (loopStep cfg st e).1 = StepRes.done v →
         v = st.result ∧ e.cmd = CmdResult.nonDict false ∧
           ∃ s, e.input = UInput.txt s ∧ pyUpper s = "STOP")
    ∧ (∀ (cfg : LoopCfg) (dA : String) (events : List Event) (v : String),
         (prompt_loop cfg dA events).1 = Outcome.finished v →
         v = lastSentD "" ((prompt_loop cfg dA events).2)) := by
  refine ⟨?_, ?_, ?_⟩
  · intro cfg st e s hc hi hstop
    obtain ⟨inp, cmd, lst, sel, argf, ap, snd⟩ := e
    dsimp only at hc hi
    subst hc
    subst hi
    unfold loopStep loopStepCore
    dsimp only
    simp [hstop]
  · exact fun cfg st e v h => loopStep_done_char cfg st e v h
  · intro cfg dA events v h
    unfold prompt_loop at h ⊢
    revert h
    cases hra : resolveAgent dA cfg.avail with
    | error m =>
      dsimp only
      intro h
      simp at h
    | ok a =>
      dsimp only
      intro h
      exact runLoopAux_finished cfg events { agent := a, result := "" } v h

/-- Session configuration for the STOP scenario of the spec: two agents,
no prompt capabilities, no initial text. -/
def c5cfg : LoopCfg :=
  { avail := ["a", "b"], hasList := false, hasApply := false
    defaultText := "" }

/-- Events of the STOP scenario: a real send answered by `hi`, then the
sentinel in lowercase. -/
def c5events : List Event :=
  [mkEvent (UInput.txt "hello") (CmdResult.nonDict false) (Except.ok [])
     (Except.ok "hi"),
   mkEvent (UInput.txt "stop") (CmdResult.nonDict false) (Except.ok [])
     (Except.error ())]

/-- Witness for C5: the spec scenario session finishes with `hi`, which is
the last send result of its trace. -/
theorem c5_stop_witness :
    "hi" = lastSentD "" ((prompt_loop c5cfg "a" c5events).2) :=
  c5_stop_returns_last_send_result.2.2 c5cfg "a" c5events "hi" rfl

/-- Reading of the startup failure condition as an error of the agent
resolution step. -/
theorem resolveAgent_error_iff (d : String) (avail : List String) :
    (∃ m, resolveAgent d avail = Except.error m) ↔
      ((d = "" ∧ avail = []) ∨ (d ≠ "" ∧ d ∉ avail)) := by
  unfold resolveAgent
  by_cases hd : d = ""
  · subst hd
    cases avail with
    | nil => simp
    | cons a t =>
      have hc : (a :: t).contains a = true :=
        (contains_iff_mem (a :: t) a).mpr (List.mem_cons_self a t)
      rw [if_pos rfl]
      dsimp only
      rw [if_pos hc]
      simp
  · rw [if_neg hd]
    dsimp only
    by_cases hm : d ∈ avail
    · rw [if_pos ((contains_iff_mem avail d).mpr hm)]
      simp [hd, hm]
    · rw [if_neg (fun hc => hm ((contains_iff_mem avail d).mp hc))]
      simp [hd, hm]

/-- Claim C6: the session reports a configuration error exactly when the
available agent list is empty with no default given, or the non-empty
default is absent from the list; and in the failing case no input is ever
solicited (the trace is empty). -/
theorem c6_configuration_error_iff (cfg : LoopCfg) (d : String)
    (events : List Event) :
    ((prompt_loop cfg d events).1 = Outcome.configError ↔
       ((d = "" ∧ cfg.avail = []) ∨ (d ≠ "" ∧ d ∉ cfg.avail)))
    ∧ (((d = "" ∧ cfg.avail = []) ∨ (d ≠ "" ∧ d ∉ cfg.avail)) →
        (prompt_loop cfg d events).2 = []) := by
  constructor
  · constructor
    · intro h
      cases hra : resolveAgent d cfg.avail with
      | error m => exact (resolveAgent_error_iff d cfg.avail).mp ⟨m, hra⟩
      | ok a =>
        exfalso
        unfold prompt_loop at h
        rw [hra] at h
        exact runLoopAux_ne_configError cfg events { agent := a, result := "" } h
    · intro hcond
      rcases (resolveAgent_error_iff d cfg.avail).mpr hcond with ⟨m, hm⟩
      unfold prompt_loop
      rw [hm]
  · intro hcond
    rcases (resolveAgent_error_iff d cfg.avail).mpr hcond with ⟨m, hm⟩
    unfold prompt_loop
    rw [hm]

/-- Session configuration with one agent, for the startup failure
scenario. -/
def c6cfg : LoopCfg :=
  { avail := ["y"], hasList := false, hasApply := false, defaultText := "" }

/-- Witness for C6: a default agent absent from a non-empty agent list
yields the configuration error with an empty trace. -/
theorem c6_configuration_error_witness :
    (prompt_loop c6cfg "x" []).1 = Outcome.configError ∧
    (prompt_loop c6cfg "x" []).2 = [] :=
  ⟨(c6_configuration_error_iff c6cfg "x" []).1.mpr
     (Or.inr ⟨by decide, by decide⟩),
   (c6_configuration_error_iff c6cfg "x" []).2
     (Or.inr ⟨by decide, by decide⟩)⟩

/-- Claim C7: an agent-switch command naming a member of the available
agents updates the current agent and produces nothing but the input
solicitation (no send); naming a non-member leaves the state unchanged,
reports the error, and also sends nothing; the loop continues in both
cases. -/
theorem c7_agent_switch (cfg : LoopCfg) (st : LoopState) (e : Event)
    (d : CmdDict) (n : String) (hc : e.cmd = CmdResult.dict d)
    (hs : d.switch_agent = some n) :
    (n ∈ cfg.avail →
       loopStep cfg st e =
         (StepRes.cont { st with agent := n },
          [Effect.solicit st.agent cfg.defaultText (cfg.defaultText != "")]))
    ∧ (n ∉ cfg.avail →
       loopStep cfg st e =
         (StepRes.cont st,
          [Effect.solicit st.agent cfg.defaultText (cfg.defaultText != ""),
           Effect.printed ("Agent " ++ n ++ " not found")])) := by
  obtain ⟨inp, cmd, lst, sel, argf, ap, snd⟩ := e
  dsimp only at hc
  subst hc
  constructor
  · intro hmem
    have hcont : cfg.avail.contains n = true :=
      (contains_iff_mem cfg.avail n).mpr hmem
    unfold loopStep loopStepCore
    dsimp only
    rw [hs]
    dsimp only
    rw [if_pos hcont]
  · intro hmem
    have hcont : ¬ cfg.avail.contains n = true :=
      fun hc2 => hmem ((contains_iff_mem cfg.avail n).mp hc2)
    unfold loopStep loopStepCore
    dsimp only
    rw [hs]
    dsimp only
    rw [if_neg hcont]

/-- Session configuration for the agent switch scenario. -/
def c7cfg : LoopCfg :=
  { avail := ["a", "b"], hasList := false, hasApply := false
    defaultText := "" }

/-- Command dictionary carrying a switch to agent `b`. -/
def c7dict : CmdDict :=
  { switch_agent := some "b", list_prompts := false, select_prompt := false
    prompt_name := none, prompt_index := none }

/-- Witness for C7: switching from `a` to the known agent `b` continues the
loop with the updated agent and no send. -/
theorem c7_agent_switch_witness :
    loopStep c7cfg { agent := "a", result := "" }
        (mkEvent UInput.struct (CmdResult.dict c7dict) (Except.ok [])
          (Except.error ())) =
      (StepRes.cont { agent := "b", result := "" },
       [Effect.solicit "a" "" false]) :=
  (c7_agent_switch c7cfg { agent := "a", result := "" }
      (mkEvent UInput.struct (CmdResult.dict c7dict) (Except.ok [])
        (Except.error ()))
      c7dict "b" rfl rfl).1 (by decide)

/-- Iterations dispatched on a dictionary command result never send. -/
theorem loopStep_dict_all_notSent (cfg : LoopCfg) (st : LoopState)
    (e : Event) (d : CmdDict) (h : e.cmd = CmdResult.dict d) :
    (loopStep cfg st e).2.all notSent = true := by
  obtain ⟨inp, cmd, lst, sel, argf, ap, snd⟩ := e
  dsimp only at h
  subst h
  unfold loopStep loopStepCore
  dsimp only
  repeat' split
  all_goals
    simp [List.all_cons, List.all_append, notSent,
      select_prompt_all_notSent, list_prompts_eff_all_notSent]

/-- A send effect in an iteration trace pins down the shape of the
iteration: the command result was falsy and not a dict, and the input was
a non-blank text line that is not the sentinel. -/
theorem loopStep_sent_char (cfg : LoopCfg) (st : LoopState) (e : Event)
    (t a r : String) (h : Effect.sent t a r ∈ (loopStep cfg st e).2) :
    e.cmd = CmdResult.nonDict false ∧
      ∃ s, e.input = UInput.txt s ∧ pyUpper s ≠ "STOP" ∧ s ≠ "" := by
  obtain ⟨inp, cmd, lst, sel, argf, ap, snd⟩ := e
  cases cmd with
  | dict d =>
    exfalso
    have hall := loopStep_dict_all_notSent cfg st
      ⟨inp, CmdResult.dict d, lst, sel, argf, ap, snd⟩ d rfl
    have := List.all_eq_true.mp hall (Effect.sent t a r) h
    simp [notSent] at this
  | nonDict b =>
    cases b with
    | true =>
      exfalso
      rw [loopStep_truthy_cont cfg st
        ⟨inp, CmdResult.nonDict true, lst, sel, argf, ap, snd⟩ rfl] at h
      simp at h
    | false =>
      cases inp with
      | struct =>
        exfalso
        unfold loopStep loopStepCore at h
        simp at h
      | txt s =>
        unfold loopStep loopStepCore at h
        dsimp only at h
        by_cases hstop : pyUpper s = "STOP"
        · exfalso
          rw [if_pos hstop] at h
          simp at h
        · rw [if_neg hstop] at h
          by_cases hblank : s = ""
          · exfalso
            rw [if_pos hblank] at h
            simp at h
          · rw [if_neg hblank] at h
            exact ⟨rfl, s, rfl, hstop, hblank⟩

/-- Claim C9: whenever the special-command handling returns a truthy or
dictionary result, the iteration continues without sending anything
(including a list or select intent whose capability function is absent,
which falls into the dictionary case); and a send can occur only for a
falsy, non-dictionary command result carrying a non-blank, non-sentinel
text input. -/
theorem c9_structured_results_never_reach_send :
    (∀ (cfg : LoopCfg) (st : LoopState) (e : Event),
       cmdTruthyOrDict e.cmd = true →
       (∃ st2, (loopStep cfg st e).1 = StepRes.cont st2) ∧
         (loopStep cfg st e).2.all notSent = true)
    ∧ (∀ (cfg : LoopCfg) (st : LoopState) (e : Event) (t a r : String),
         Effect.sent t a r ∈ (loopStep cfg st e).2 →
         e.cmd = CmdResult.nonDict false ∧
           ∃ s, e.input = UInput.txt s ∧ pyUpper s ≠ "STOP" ∧ s ≠ "") := by
  constructor
  · intro cfg st e htr
    cases hc : e.cmd with
    | dict d =>
      exact ⟨loopStep_dict_cont cfg st e d hc,
        loopStep_dict_all_notSent cfg st e d hc⟩
    | nonDict b =>
      cases b with
      | true =>
        rw [loopStep_truthy_cont cfg st e hc]
        exact ⟨⟨st, rfl⟩, by simp [List.all_cons, notSent]⟩
      | false =>
        exfalso
        rw [hc] at htr
        simp [cmdTruthyOrDict] at htr
  · exact fun cfg st e t a r h => loopStep_sent_char cfg st e t a r h

/-- Command dictionary carrying a select intent with no capabilities able
to serve it. -/
def c9dict : CmdDict :=
  { switch_agent := none, list_prompts := false, select_prompt := true
    prompt_name := some "greet", prompt_index := none }

/-- Witness for C9: a recognized select intent arriving while the apply
capability is absent is consumed silently — the loop continues and nothing
reaches the send capability. -/
theorem c9_structured_results_witness :
    (∃ st2,
      (loopStep c7cfg { agent := "a", result := "" }
          (mkEvent (UInput.txt "/prompts") (CmdResult.dict c9dict)
            (Except.ok []) (Except.error ()))).1 = StepRes.cont st2) ∧
    (loopStep c7cfg { agent := "a", result := "" }
        (mkEvent (UInput.txt "/prompts") (CmdResult.dict c9dict)
          (Except.ok []) (Except.error ()))).2.all notSent = true :=
  c9_structured_results_never_reach_send.1 c7cfg
    { agent := "a", result := "" }
    (mkEvent (UInput.txt "/prompts") (CmdResult.dict c9dict)
      (Except.ok []) (Except.error ())) rfl

/-- Claim C8: an exception of the listing capability is caught at the
Catalog Resolver boundary (empty catalog) and at the top of the Selection
Wizard (error report, normal return); an apply exception is likewise caught
and reported inside the wizard; every dictionary-dispatched iteration — the
only place listing and applying run — continues the loop; while a send
exception is not caught and makes the whole loop fail. -/
theorem c8_collaborator_error_containment :
    get_all_prompts (Except.error ()) = []
    ∧ (∀ (win : WizIn) (agent : String) (req : Option String),
         win.listing = Except.error () →
         select_prompt win agent req =
           [Effect.printed ("Fetching prompts for agent " ++ agent),
            Effect.printed ("Error selecting or applying prompt")])
    ∧ (∀ (win : WizIn) (sel : PromptDesc) (agent : String),
         win.applyResult = Except.error () →
         Effect.printed ("Error selecting or applying prompt") ∈
           collectAndApply win sel agent)
    ∧ (∀ (cfg : LoopCfg) (st : LoopState) (e : Event) (d : CmdDict),
         e.cmd = CmdResult.dict d →
         ∃ st2, (loopStep cfg st e).1 = StepRes.cont st2)
    ∧ (∀ (cfg : LoopCfg) (st : LoopState) (e : Event) (es : List Event)
         (s : String),
         e.cmd = CmdResult.nonDict false → e.input = UInput.txt s →
         pyUpper s ≠ "STOP" → s ≠ "" → e.sendResult = Except.error () →
         (runLoopAux cfg (e :: es) st).1 = Outcome.sendFailed) := by
  refine ⟨rfl, ?_, ?_, ?_, ?_⟩
  · intro win agent req hl
    unfold select_prompt
    rw [hl]
    rfl
  · intro win sel agent hap
    unfold collectAndApply
    dsimp only
    rw [hap]
    simp
  · exact fun cfg st e d h => loopStep_dict_cont cfg st e d h
  · intro cfg st e es s hc hi hstop hblank hsend
    obtain ⟨inp, cmd, lst, sel, argf, ap, snd⟩ := e
    dsimp only at hc hi hsend
    subst hc
    subst hi
    subst hsend
    have hstep :
        loopStep cfg st
          ⟨UInput.txt s, CmdResult.nonDict false, lst, sel, argf, ap,
           Except.error ()⟩ =
        (StepRes.failedSend,
         [Effect.solicit st.agent cfg.defaultText (cfg.defaultText != "")]) := by
      unfold loopStep loopStepCore
      dsimp only
      rw [if_neg hstop, if_neg hblank]
      simp
    unfold runLoopAux
    rw [hstep]

/-- Wizard oracle whose listing capability raises. -/
def c8win : WizIn :=
  { listing := Except.error (), selInput := none, argInput := fun _ => none
    applyResult := Except.ok () }

/-- Witness for C8: a raising listing capability makes the wizard report
the failure and return its trace normally. -/
theorem c8_collaborator_error_witness :
    select_prompt c8win "ag" none =
      [Effect.printed ("Fetching prompts for agent ag"),
       Effect.printed ("Error selecting or applying prompt")] :=
  c8_collaborator_error_containment.2.1 c8win "ag" none rfl

/-- Claim C4: for a resolved descriptor with duplicate-free argument names,
the wizard solicits one value per required argument in order (storing every
returned value), then one per optional argument in order (storing only
truthy values), and finally invokes the apply capability with the
namespaced name, the collected map and the agent name. -/
theorem c4_argument_collection_then_apply (win : WizIn) (sel : PromptDesc)
    (agent : String)
    (hN : (sel.required_args ++ sel.optional_args).Nodup) :
    collectAndApply win sel agent =
      (if sel.required_args ≠ [] ∨ sel.optional_args ≠ [] then
         [Effect.printed ("Prompt argument header")]
       else []) ++
      (sel.required_args.map (fun a =>
         Effect.solicitArg a (pyDictGet sel.arg_descriptions a "") true) ++
       sel.optional_args.map (fun a =>
         Effect.solicitArg a (pyDictGet sel.arg_descriptions a "") false)) ++
      [Effect.printed ("Applying prompt"),
       Effect.applied sel.namespaced_name
         (sel.required_args.filterMap (reqBind win.argInput) ++
          sel.optional_args.filterMap (optBind win.argInput)) agent] ++
      (match win.applyResult with
       | Except.ok _ => []
       | Except.error _ =>
         [Effect.printed ("Error selecting or applying prompt")]) := by
  rcases List.nodup_append.mp hN with ⟨hreq, hopt, hdisj⟩
  have hreqfst := foldl_reqStep_fst win.argInput sel.arg_descriptions
    sel.required_args ((([] : List (String × String)), ([] : List Effect)))
    hreq (by intro a ha hk; simp [keysOf] at hk)
  have hkeys : ∀ a ∈ sel.optional_args,
      a ∉ keysOf ((sel.required_args.foldl
        (reqStep win.argInput sel.arg_descriptions)
        ((([] : List (String × String)), ([] : List Effect)))).1) := by
    intro a ha hk
    rw [hreqfst] at hk
    simp only [List.nil_append, keysOf, List.mem_map] at hk
    rcases hk with ⟨p, hp, hfst⟩
    rcases List.mem_filterMap.mp hp with ⟨x, hx, hbx⟩
    have hpx : p.1 = x := by
      cases hf : win.argInput x with
      | none => simp [reqBind, hf] at hbx
      | some v =>
        have hpv : p = (x, v) := by
          simp only [reqBind, hf, Option.map_some] at hbx
          exact (Option.some.injEq _ _).mp hbx.symm
        rw [hpv]
    have hax : a = x := by rw [← hfst, hpx]
    exact hdisj (by rw [hax]; exact hx) ha
  have hoptfst := foldl_optStep_fst win.argInput sel.arg_descriptions
    sel.optional_args (sel.required_args.foldl
      (reqStep win.argInput sel.arg_descriptions)
      ((([] : List (String × String)), ([] : List Effect)))) hopt hkeys
  have hoptsnd := foldl_optStep_snd win.argInput sel.arg_descriptions
    sel.optional_args (sel.required_args.foldl
      (reqStep win.argInput sel.arg_descriptions)
      ((([] : List (String × String)), ([] : List Effect))))
  have hreqsnd := foldl_reqStep_snd win.argInput sel.arg_descriptions
    sel.required_args ((([] : List (String × String)), ([] : List Effect)))
  unfold collectAndApply collectArgs
  dsimp only
  rw [hoptfst, hoptsnd, hreqfst, hreqsnd]
  simp [List.append_assoc]

/-- Resolved descriptor for the argument collection scenario: one required
and one optional argument, the former with a stored description. -/
def c4sel : PromptDesc :=
  { server := "s", name := "report", namespaced_name := "s-report"
    description := some "d", arg_count := 2, arg_names := ["city", "units"]
    required_args := ["city"], optional_args := ["units"]
    arg_descriptions := [("city", "City name")] }

/-- Wizard oracle for the argument collection scenario: the required
argument receives `Paris`, the optional one an empty (falsy) value. -/
def c4win : WizIn :=
  { listing := Except.ok [], selInput := none
    argInput := fun a => if a = "city" then some "Paris" else some ""
    applyResult := Except.ok () }

/-- Witness for C4: the wizard solicits `city` then `units`, stores only
the truthy required value, and applies the prompt with the collected
map. -/
theorem c4_argument_collection_witness :
    collectAndApply c4win c4sel "ag" =
      [Effect.printed ("Prompt argument header"),
       Effect.solicitArg "city" "City name" true,
       Effect.solicitArg "units" "" false,
       Effect.printed ("Applying prompt"),
       Effect.applied "s-report" [("city", "Paris")] "ag"] :=
  (c4_argument_collection_then_apply c4win c4sel "ag" (by decide)).trans
    (by decide)

/-- Descriptors of the structured catalog branch satisfy the namespacing
invariant. -/
theorem structEntry_inv (server : String) (p : PEntry) (d : PromptInfo)
    (h : structEntry server p = Except.ok d) :
    d.namespaced_name = d.server ++ SEP ++ d.name := by
  cases p with
  | pdict a b c s => simp [structEntry] at h
  | pobj nm ds ar s =>
    simp only [structEntry, Except.ok.injEq] at h
    rw [← h]

/-- All descriptors of a structured prompts list satisfy the namespacing
invariant. -/
theorem structEntries_inv (server : String) :
    ∀ (ps : List PEntry) (ds : List PromptInfo),
      structEntries server ps = Except.ok ds →
      ∀ d ∈ ds, d.namespaced_name = d.server ++ SEP ++ d.name := by
  intro ps
  induction ps with
  | nil =>
    intro ds h d hd
    simp only [structEntries, Except.ok.injEq] at h
    rw [← h] at hd
    simp at hd
  | cons p t ih =>
    intro ds h d hd
    unfold structEntries at h
    revert h
    cases he : structEntry server p with
    | error e => intro h; simp at h
    | ok d0 =>
      cases ht : structEntries server t with
      | error e => intro h; simp at h
      | ok ds0 =>
        intro h
        simp only [Except.ok.injEq] at h
        rw [← h] at hd
        rcases List.mem_cons.mp hd with h1 | h1
        · rw [h1]
          exact structEntry_inv server p d0 he
        · exact ih ds0 ht d h1

/-- Descriptors of the loose catalog branch satisfy the namespacing
invariant. -/
theorem looseEntry_inv (server : String) (p : PEntry) :
    (looseEntry server p).namespaced_name =
      (looseEntry server p).server ++ SEP ++ (looseEntry server p).name := by
  cases p with
  | pdict nk dk ak s => cases nk <;> rfl
  | pobj nm ds ar s => rfl

/-- All descriptors contributed by one server satisfy the namespacing
invariant. -/
theorem serverPrompts_inv (server : String) (info : PromptsInfo)
    (ds : List PromptInfo) (h : serverPrompts server info = Except.ok ds) :
    ∀ d ∈ ds, d.namespaced_name = d.server ++ SEP ++ d.name := by
  cases info with
  | structured ps => exact structEntries_inv server ps ds h
  | loose es =>
    intro d hd
    simp only [serverPrompts, Except.ok.injEq] at h
    rw [← h] at hd
    rcases List.mem_map.mp hd with ⟨p, _, hp⟩
    rw [← hp]
    exact looseEntry_inv server p
  | nullish =>
    intro d hd
    simp only [serverPrompts, Except.ok.injEq] at h
    rw [← h] at hd
    simp at hd

/-- All descriptors collected across servers satisfy the namespacing
invariant. -/
theorem getAllPromptsCore_inv :
    ∀ (servers : List (String × PromptsInfo)) (ds : List PromptInfo),
      getAllPromptsCore servers = Except.ok ds →
      ∀ d ∈ ds, d.namespaced_name = d.server ++ SEP ++ d.name := by
  intro servers
  induction servers with
  | nil =>
    intro ds h d hd
    simp only [getAllPromptsCore, Except.ok.injEq] at h
    rw [← h] at hd
    simp at hd
  | cons sv t ih =>
    intro ds h d hd
    obtain ⟨svname, info⟩ := sv
    unfold getAllPromptsCore at h
    revert h
    cases he : serverPrompts svname info with
    | error e => intro h; simp at h
    | ok l =>
      cases ht : getAllPromptsCore t with
      | error e => intro h; simp at h
      | ok ls =>
        intro h
        simp only [Except.ok.injEq] at h
        rw [← h] at hd
        rcases List.mem_append.mp hd with h1 | h1
        · exact serverPrompts_inv svname info l he d h1
        · exact ih ls ht d h1

/-- A prompt name never equals a namespaced name, since the separator is
non-empty. -/
theorem name_ne_namespaced (s n : String) : (n == s ++ SEP ++ n) = false := by
  rw [beq_eq_false_iff_ne]
  intro h
  have hl := congrArg String.length h
  rw [String.length_append, String.length_append] at hl
  have hsep : SEP.length = 1 := rfl
  omega

/-- Namespaced names of different servers differ, for the same prompt
name. -/
theorem namespaced_inj_server (s1 s2 n : String) (h12 : s1 ≠ s2) :
    (s2 ++ SEP ++ n == s1 ++ SEP ++ n) = false := by
  rw [beq_eq_false_iff_ne]
  intro h
  apply h12
  have hd := congrArg String.data h
  rw [String.data_append, String.data_append, String.data_append,
    String.data_append] at hd
  have h2 := List.append_cancel_right hd
  have h3 := List.append_cancel_right h2
  exact (String.ext h3).symm

/-- Claim C10: every descriptor built by the catalog builders satisfies
`namespaced_name = server + SEP + name` (stated for the Catalog Resolver
output and for the wizard catalog step), and in a catalog where two
different servers expose the same prompt name, requesting selection by a
namespaced name matches exactly the descriptor of that server, which is the
one the wizard applies. -/
theorem c10_namespaced_identity :
    (∀ (listing : Except Unit (List (String × PromptsInfo)))
       (d : PromptInfo), d ∈ get_all_prompts listing →
       d.namespaced_name = d.server ++ SEP ++ d.name)
    ∧ (∀ (server : String) (p : PEntry),
         (processPrompt server p).namespaced_name =
           server ++ SEP ++ (processPrompt server p).name)
    ∧ (∀ (win : WizIn) (agent s1 s2 n : String),
         s1 ≠ s2 →
         win.listing = Except.ok
           [(s1, PromptsInfo.structured [PEntry.pobj n none none n]),
            (s2, PromptsInfo.structured [PEntry.pobj n none none n])] →
         win.applyResult = Except.ok () →
         select_prompt win agent (some (s1 ++ SEP ++ n)) =
           [Effect.printed ("Fetching prompts for agent " ++ agent),
            Effect.printed ("Applying prompt"),
            Effect.applied (s1 ++ SEP ++ n) [] agent]) := by
  refine ⟨?_, ?_, ?_⟩
  · intro listing d hd
    cases listing with
    | error e => simp [get_all_prompts] at hd
    | ok servers =>
      cases hc : getAllPromptsCore servers with
      | error e =>
        exfalso
        have hga : get_all_prompts (Except.ok servers) = [] := by
          unfold get_all_prompts
          dsimp only
          rw [hc]
        rw [hga] at hd
        simp at hd
      | ok l =>
        have hga : get_all_prompts (Except.ok servers) = l.mergeSort piLe := by
          unfold get_all_prompts
          dsimp only
          rw [hc]
        rw [hga] at hd
        exact getAllPromptsCore_inv servers l hc d
          ((List.mergeSort_perm l piLe).mem_iff.mp hd)
  · intro server p
    rfl
  · intro win agent s1 s2 n h12 hl hap
    have hd1 : processPrompt s1 (PEntry.pobj n none none n) =
        { server := s1, name := n, namespaced_name := s1 ++ SEP ++ n
          description := some ("No description"), arg_count := 0
          arg_names := [], required_args := [], optional_args := []
          arg_descriptions := [] } := rfl
    have hd2 : processPrompt s2 (PEntry.pobj n none none n) =
        { server := s2, name := n, namespaced_name := s2 ++ SEP ++ n
          description := some ("No description"), arg_count := 0
          arg_names := [], required_args := [], optional_args := []
          arg_descriptions := [] } := rfl
    unfold select_prompt
    rw [hl]
    dsimp only
    rw [if_neg (by simp)]
    have hcat : selectCatalog
        [(s1, PromptsInfo.structured [PEntry.pobj n none none n]),
         (s2, PromptsInfo.structured [PEntry.pobj n none none n])] =
        [processPrompt s1 (PEntry.pobj n none none n),
         processPrompt s2 (PEntry.pobj n none none n)] := rfl
    rw [hcat, hd1, hd2]
    have hperm := List.mergeSort_perm
      [({ server := s1, name := n, namespaced_name := s1 ++ SEP ++ n
          description := some ("No description"), arg_count := 0
          arg_names := [], required_args := [], optional_args := []
          arg_descriptions := [] } : PromptDesc),
       { server := s2, name := n, namespaced_name := s2 ++ SEP ++ n
         description := some ("No description"), arg_count := 0
         arg_names := [], required_args := [], optional_args := []
         arg_descriptions := [] }] pdLe
    have hne : ¬ (List.mergeSort
        [({ server := s1, name := n, namespaced_name := s1 ++ SEP ++ n
            description := some ("No description"), arg_count := 0
            arg_names := [], required_args := [], optional_args := []
            arg_descriptions := [] } : PromptDesc),
         { server := s2, name := n, namespaced_name := s2 ++ SEP ++ n
           description := some ("No description"), arg_count := 0
           arg_names := [], required_args := [], optional_args := []
           arg_descriptions := [] }] pdLe).isEmpty = true := by
      rw [List.isEmpty_iff]
      intro h0
      have := hperm.length_eq
      rw [h0] at this
      simp at this
    rw [if_neg hne]
    have hfl : List.filter (matchesReq (s1 ++ SEP ++ n))
        [({ server := s1, name := n, namespaced_name := s1 ++ SEP ++ n
            description := some ("No description"), arg_count := 0
            arg_names := [], required_args := [], optional_args := []
            arg_descriptions := [] } : PromptDesc),
         { server := s2, name := n, namespaced_name := s2 ++ SEP ++ n
           description := some ("No description"), arg_count := 0
           arg_names := [], required_args := [], optional_args := []
           arg_descriptions := [] }] =
        [{ server := s1, name := n, namespaced_name := s1 ++ SEP ++ n
           description := some ("No description"), arg_count := 0
           arg_names := [], required_args := [], optional_args := []
           arg_descriptions := [] }] := by
      simp [List.filter_cons, List.filter_nil, matchesReq,
        name_ne_namespaced s1 n, namespaced_inj_server s1 s2 n h12]
    have hmatch : List.filter (matchesReq (s1 ++ SEP ++ n))
        (List.mergeSort
          [({ server := s1, name := n, namespaced_name := s1 ++ SEP ++ n
              description := some ("No description"), arg_count := 0
              arg_names := [], required_args := [], optional_args := []
              arg_descriptions := [] } : PromptDesc),
           { server := s2, name := n, namespaced_name := s2 ++ SEP ++ n
             description := some ("No description"), arg_count := 0
             arg_names := [], required_args := [], optional_args := []
             arg_descriptions := [] }] pdLe) =
        [{ server := s1, name := n, namespaced_name := s1 ++ SEP ++ n
           description := some ("No description"), arg_count := 0
           arg_names := [], required_args := [], optional_args := []
           arg_descriptions := [] }] :=
      List.perm_singleton.mp ((hperm.filter _).trans (by rw [hfl]))
    rw [hmatch]
    dsimp only
    unfold collectAndApply
    rw [hap]
    dsimp only
    simp [collectArgs]

/-- Wizard oracle for the duplicate-name scenario: two servers exposing a
prompt named `greet`. -/
def c10win : WizIn :=
  { listing := Except.ok
      [("s1", PromptsInfo.structured [PEntry.pobj "greet" none none "greet"]),
       ("s2", PromptsInfo.structured [PEntry.pobj "greet" none none "greet"])]
    selInput := none, argInput := fun _ => none
    applyResult := Except.ok () }

/-- Witness for C10: requesting `s1-greet` in the duplicate-name catalog
applies exactly the descriptor of server `s1`. -/
theorem c10_namespaced_identity_witness :
    select_prompt c10win "ag" (some ("s1" ++ SEP ++ "greet")) =
      [Effect.printed ("Fetching prompts for agent ag"),
       Effect.printed ("Applying prompt"),
       Effect.applied ("s1" ++ SEP ++ "greet") [] "ag"] :=
  c10_namespaced_identity.2.2 c10win "ag" "s1" "s2" "greet"
    (by decide) rfl rfl
